import Mathlib

/-!
# Verification of `bse-backend` (BSE corporate-announcements scraper)

Shallow embedding of the repository's pure logic:

* `src/scrapper_bse.py` — `to_site_date`, `_safe_get`, `_make_pdf_url`,
  `_make_detail_url`, `normalize_row`, `_extract_rows`,
  `fetch_announcements` (its page/endpoint/variant loop, with the network
  abstracted as an oracle), and the `__main__` dedup loop;
* `src/app.py` — the `/bse` handler `get_bse` (its `try/except`, dedup and
  truncation logic, with the fetch outcome abstracted).

Python values appearing in JSON payloads and rows are modelled by `PyVal`;
Python dicts are association lists (`Row`) looked up first-match, which
coincides with Python dict lookup since Python dicts have unique keys.
-/

set_option maxHeartbeats 1000000

namespace BSE

/-- Model of the Python/JSON values that flow through the scraper:
`None`, booleans, integers, strings, lists and string-keyed dicts.
(Upstream payloads are parsed JSON; numbers are modelled as integers.) -/
inductive PyVal where
  | none
  | bool (b : Bool)
  | int (n : Int)
  | str (s : String)
  | list (xs : List PyVal)
  | dict (ps : List (String × PyVal))
  deriving Inhabited

/-- A Python dict with string keys, as an association list (first match wins). -/
abbrev Row := List (String × PyVal)

mutual

/-- Structural equality on `PyVal` (Python `==` on these values; the
payloads contain no cross-type `==` coincidences such as `True == 1`
in the places where the code compares values). -/
def PyVal.beq : PyVal → PyVal → Bool
  | .none, .none => true
  | .bool a, .bool b => a == b
  | .int a, .int b => a == b
  | .str a, .str b => a == b
  | .list xs, .list ys => PyVal.beqList xs ys
  | .dict ps, .dict qs => PyVal.beqDict ps qs
  | _, _ => false

def PyVal.beqList : List PyVal → List PyVal → Bool
  | [], [] => true
  | x :: xs, y :: ys => PyVal.beq x y && PyVal.beqList xs ys
  | _, _ => false

def PyVal.beqDict : List (String × PyVal) → List (String × PyVal) → Bool
  | [], [] => true
  | (k, x) :: ps, (l, y) :: qs => k == l && PyVal.beq x y && PyVal.beqDict ps qs
  | _, _ => false

end

mutual

theorem PyVal.beq_iff : ∀ a b : PyVal, PyVal.beq a b = true ↔ a = b
  | .none, .none => by simp [PyVal.beq]
  | .bool a, .bool b => by simp [PyVal.beq]
  | .int a, .int b => by simp [PyVal.beq]
  | .str a, .str b => by simp [PyVal.beq]
  | .list xs, .list ys => by
      simpa [PyVal.beq] using PyVal.beqList_iff xs ys
  | .dict ps, .dict qs => by
      simpa [PyVal.beq] using PyVal.beqDict_iff ps qs
  | .none, .bool _ | .none, .int _ | .none, .str _ | .none, .list _ | .none, .dict _
  | .bool _, .none | .bool _, .int _ | .bool _, .str _ | .bool _, .list _ | .bool _, .dict _
  | .int _, .none | .int _, .bool _ | .int _, .str _ | .int _, .list _ | .int _, .dict _
  | .str _, .none | .str _, .bool _ | .str _, .int _ | .str _, .list _ | .str _, .dict _
  | .list _, .none | .list _, .bool _ | .list _, .int _ | .list _, .str _ | .list _, .dict _
  | .dict _, .none | .dict _, .bool _ | .dict _, .int _ | .dict _, .str _ | .dict _, .list _ => by
      simp [PyVal.beq]

theorem PyVal.beqList_iff : ∀ xs ys : List PyVal, PyVal.beqList xs ys = true ↔ xs = ys
  | [], [] => by simp [PyVal.beqList]
  | [], _ :: _ => by simp [PyVal.beqList]
  | _ :: _, [] => by simp [PyVal.beqList]
  | x :: xs, y :: ys => by
      simp [PyVal.beqList, PyVal.beq_iff x y, PyVal.beqList_iff xs ys]

theorem PyVal.beqDict_iff : ∀ ps qs : List (String × PyVal), PyVal.beqDict ps qs = true ↔ ps = qs
  | [], [] => by simp [PyVal.beqDict]
  | [], _ :: _ => by simp [PyVal.beqDict]
  | _ :: _, [] => by simp [PyVal.beqDict]
  | (k, x) :: ps, (l, y) :: qs => by
      simp [PyVal.beqDict, PyVal.beq_iff x y, PyVal.beqDict_iff ps qs, and_assoc]

end

instance : DecidableEq PyVal := fun a b =>
  decidable_of_iff (PyVal.beq a b = true) (PyVal.beq_iff a b)

/-- Python truthiness (`bool(v)`) for the modelled values. -/
def PyVal.truthy : PyVal → Bool
  | .none => false
  | .bool b => b
  | .int n => n != 0
  | .str s => s != ""
  | .list xs => !xs.isEmpty
  | .dict ps => !ps.isEmpty

mutual

/-- Python `repr(v)` for the modelled values (string escaping inside
containers is not reproduced; no claim depends on it). -/
def pyRepr : PyVal → String
  | .none => "None"
  | .bool true => "True"
  | .bool false => "False"
  | .int n => toString n
  | .str s => "'" ++ s ++ "'"
  | .list xs => "[" ++ pyReprElems xs ++ "]"
  | .dict ps => "\x7b" ++ pyReprPairs ps ++ "\x7d"

/-- Comma-separated `repr`s of list elements. -/
def pyReprElems : List PyVal → String
  | [] => ""
  | [x] => pyRepr x
  | x :: xs => pyRepr x ++ ", " ++ pyReprElems xs

/-- Comma-separated `'key': repr(value)` renderings of dict entries. -/
def pyReprPairs : List (String × PyVal) → String
  | [] => ""
  | [(k, v)] => "'" ++ k ++ "': " ++ pyRepr v
  | (k, v) :: ps => "'" ++ k ++ "': " ++ pyRepr v ++ ", " ++ pyReprPairs ps

end

/-- Python `str(v)`: like `repr` but a bare string at top level. -/
def pyStr : PyVal → String
  | .str s => s
  | v => pyRepr v

/-- Python dict lookup `d.get(k)` on the association-list model:
value of the first pair whose key is `k`, if any. -/
def dictGet (d : Row) (k : String) : Option PyVal :=
  (d.find? (fun p => p.1 = k)).map (·.2)

/-- `v in (None, "")` — the "treat as absent" test of `_safe_get`. -/
def isNoneOrEmpty : PyVal → Bool
  | .none => true
  | .str s => s == ""
  | _ => false

/-- `_safe_get(d, *keys, default=...)` from `src/scrapper_bse.py:70`:
return the first `d[k]` over `keys` that is present and not `None`/`""`,
else the default. -/
def safe_get (d : Row) (keys : List String) (dflt : PyVal) : PyVal :=
  match keys with
  | [] => dflt
  | k :: ks =>
    match dictGet d k with
    | some v => if isNoneOrEmpty v then safe_get d ks dflt else v
    | Option.none => safe_get d ks dflt

/-- Python `str.strip()` on our char-list view (both-ends whitespace strip). -/
def pyStrip (cs : List Char) : List Char :=
  ((cs.dropWhile Char.isWhitespace).reverse.dropWhile Char.isWhitespace).reverse

/-- Python `str.strip()` at `String` level. -/
def pyStripStr (s : String) : String := String.mk (pyStrip s.data)

/-- Does `att.lower().startswith("http")` hold for this string?
(`lower()` maps each character to lower case; the pattern `"http"` is the
char list `['h','t','t','p']`.) -/
def lowerStartsHttp (s : String) : Bool :=
  List.isPrefixOf ['h', 't', 't', 'p'] (s.data.map Char.toLower)

/-- `_make_pdf_url(row)` from `src/scrapper_bse.py:76`. Result is `None` or a
string, exactly as in the source (`Optional[str]`). -/
def make_pdf_url (row : Row) : PyVal :=
  let att := safe_get row ["ATTACHMENTNAME", "ATTACHMENT", "FILE"] PyVal.none
  if !att.truthy then PyVal.none
  else
    let isHttpStr := match att with
      | .str s => lowerStartsHttp s
      | _ => false
    if isHttpStr then att
    else
      let pdfflag := safe_get row ["PDFFLAG", "pdfflag"] (PyVal.int 0)
      if pyStr pdfflag = "1" then
        PyVal.str ("https://www.bseindia.com/xml-data/corpfiling/AttachHis/" ++ pyStr att)
      else
        PyVal.str ("https://www.bseindia.com/xml-data/corpfiling/AttachLive/" ++ pyStr att)

/-- `_make_detail_url(row)` from `src/scrapper_bse.py:87`. -/
def make_detail_url (row : Row) : PyVal :=
  let newsid := safe_get row ["NEWSID", "newsid"] PyVal.none
  let scrip := pyStripStr (pyStr (safe_get row ["SCRIP_CD", "Scripcode", "scripcode"] (PyVal.str "")))
  if newsid.truthy && scrip != "" then
    PyVal.str ("https://m.bseindia.com/MAnnDet.aspx?Form=STR&newsid=" ++ pyStr newsid
      ++ "&scrpcd=" ++ scrip)
  else PyVal.none

/-- `normalize_row(r)` from `src/scrapper_bse.py:94`: the nine-field
normalized announcement record. -/
def normalize_row (r : Row) : Row :=
  [("datetime",    safe_get r ["DT_TM", "DtTm", "NEWS_DT"] PyVal.none),
   ("scrip_code",  safe_get r ["SCRIP_CD", "Scripcode", "scripcode"] PyVal.none),
   ("scrip_name",  safe_get r ["S_LONGNAME", "SLONGNAME", "SCRIPNAME", "Scripname"] PyVal.none),
   ("headline",    safe_get r ["NEWSSUB", "HEADLINE", "NEWS_SUB"] PyVal.none),
   ("category",    safe_get r ["CATEGORYNAME", "CATEGORY"] PyVal.none),
   ("subcategory", safe_get r ["SUBCATEGORYNAME", "SUBCAT"] PyVal.none),
   ("news_id",     safe_get r ["NEWSID", "newsid"] PyVal.none),
   ("pdf_url",     make_pdf_url r),
   ("detail_url",  make_detail_url r)]

/-- First key among `keys` whose value in `ps` is a list, with that list
(the `for key in ("Table","table","data","Data")` scan of `_extract_rows`). -/
def firstListVal (ps : Row) : List String → Option (List PyVal)
  | [] => Option.none
  | k :: ks =>
    match dictGet ps k with
    | some (.list xs) => some xs
    | _ => firstListVal ps ks

/-- `_extract_rows(payload)` from `src/scrapper_bse.py:107`: the first of the
envelope keys `"Table","table","data","Data"` holding a list, else
`payload["d"]["Table"]` when `payload["d"]` is a dict holding a list there,
else `[]`; non-dict payloads give `[]`. -/
def extract_rows (payload : PyVal) : List PyVal :=
  match payload with
  | .dict ps =>
    match firstListVal ps ["Table", "table", "data", "Data"] with
    | some xs => xs
    | Option.none =>
      match dictGet ps "d" with
      | some (.dict dps) =>
        match dictGet dps "Table" with
        | some (.list xs) => xs
        | _ => []
      | _ => []
  | _ => []

/-! ## Deduplication (`src/app.py:56` and the `__main__` loop of
`src/scrapper_bse.py:272`) -/

/-- `r.get("news_id")` with Python's `None` default. -/
def nidOf (r : Row) : PyVal := (dictGet r "news_id").getD PyVal.none

/-- The dedup loop of `get_bse` (`src/app.py:56`): `seen` starts empty; a row
is appended iff its `news_id` is truthy and not seen yet. -/
def dedupGo (seen : List PyVal) : List Row → List Row
  | [] => []
  | r :: rs =>
    if (nidOf r).truthy ∧ nidOf r ∉ seen then r :: dedupGo (nidOf r :: seen) rs
    else dedupGo seen rs

/-- Deduplication by `news_id` as performed by the `/bse` handler. -/
def dedup (rows : List Row) : List Row := dedupGo [] rows

/-- The `__main__` dedup loop of `src/scrapper_bse.py:272`
(`if not nid or nid in seen: continue`). -/
def dedupCliGo (seen : List PyVal) : List Row → List Row
  | [] => []
  | r :: rs =>
    if ¬(nidOf r).truthy ∨ nidOf r ∈ seen then dedupCliGo seen rs
    else r :: dedupCliGo (nidOf r :: seen) rs

/-- CLI deduplication (`src/scrapper_bse.py` `__main__`). -/
def dedupCli (rows : List Row) : List Row := dedupCliGo [] rows

/-- Declarative restatement of §4.8/§8 of the spec ("first-occurrence-wins
uniqueness on the news identifier; rows lacking an identifier are dropped"):
keep a row iff its `news_id` is truthy, then drop all later rows carrying the
same `news_id`. Used to compare the code's loop against the spec's words. -/
def dedupSpec : List Row → List Row
  | [] => []
  | r :: rs =>
    if (nidOf r).truthy then
      r :: dedupSpec (rs.filter (fun x => nidOf x ≠ nidOf r))
    else dedupSpec rs
termination_by l => l.length
decreasing_by
  · simpa using Nat.lt_succ_of_le (List.length_filter_le _ _)
  · simp

/-! ## The `/bse` facade (`src/app.py:29`) and the CLI output -/

/-- Outcome of calling the fetcher inside the handler's `try:` block — either
the returned row list or a raised exception carrying its traceback text
(this also covers the re-raised `ImportError` of `_get_fetch`). -/
inductive FetchOutcome where
  | ok (rows : List Row)
  | exc (trace : String)

/-- The JSON body returned by the `/bse` handler: either
`{"count": ..., "rows": ...}` or `{"error": ..., "trace": ...}`. -/
inductive BseResponse where
  | data (count : Nat) (rows : List Row)
  | err (error : String) (trace : String)
  deriving DecidableEq

/-- `get_bse` from `src/app.py:41-63`: the `try/except` body after the fetch
call has produced an outcome — dedup, count, truncate to 200 rows; any
exception becomes the `{"error": "Server crash", "trace": ...}` object. -/
def get_bse (outcome : FetchOutcome) : BseResponse :=
  match outcome with
  | .ok rows => BseResponse.data (dedup rows).length ((dedup rows).take 200)
  | .exc trace => BseResponse.err "Server crash" trace

/-- The `__main__` summary of `src/scrapper_bse.py:280`:
`{"count": len(dedup), "rows": dedup[:50]}`. -/
def cliOutput (data : List Row) : Nat × List Row :=
  ((dedupCli data).length, (dedupCli data).take 50)

/-! ## Date handling (`to_site_date`, `src/scrapper_bse.py:58`)

`datetime.strptime` with the four formats of `DATE_FORMATS` is modelled
character by character after CPython's `_strptime` regexes:
`%Y ↦ \d\d\d\d`, `%m ↦ 1[0-2]|0[1-9]|[1-9]`, `%d ↦ 3[01]|[12]\d|0[1-9]|[1-9]`,
a literal separator, a whole-string match ("unconverted data remains"
otherwise), and the `datetime` constructor's range validation.
The regex alternatives are tried in order without backtracking; this is
equivalent here because whenever a two-digit alternative matches but the
following separator (or end of string) fails, the one-digit alternative
leaves a digit in separator position and fails as well. -/

/-- Numeric value of a digit character. -/
def digitVal (c : Char) : Nat := c.toNat - 48

/-- The digit character for `k < 10` (`'*'` outside the range, unused). -/
def digitChar : Nat → Char
  | 0 => '0' | 1 => '1' | 2 => '2' | 3 => '3' | 4 => '4'
  | 5 => '5' | 6 => '6' | 7 => '7' | 8 => '8' | 9 => '9'
  | _ => '*'

/-- Two-digit zero-padded rendering (`%d`/`%m` in `strftime`), as chars. -/
def pad2chars (n : Nat) : List Char := [digitChar (n / 10), digitChar (n % 10)]

/-- Four-digit zero-padded rendering (`%Y` in `strftime`), as chars. -/
def pad4chars (n : Nat) : List Char :=
  [digitChar (n / 1000), digitChar (n / 100 % 10), digitChar (n / 10 % 10), digitChar (n % 10)]

/-- `%Y`: exactly four digits. -/
def parseY : List Char → Option (Nat × List Char)
  | a :: b :: c :: d :: rest =>
    if a.isDigit && b.isDigit && c.isDigit && d.isDigit then
      some (digitVal a * 1000 + digitVal b * 100 + digitVal c * 10 + digitVal d, rest)
    else Option.none
  | _ => Option.none

/-- `%m`: `1[0-2] | 0[1-9] | [1-9]`. -/
def parseM : List Char → Option (Nat × List Char)
  | a :: b :: rest =>
    if a = '1' && b.isDigit && digitVal b ≤ 2 then some (10 + digitVal b, rest)
    else if a = '0' && b.isDigit && 1 ≤ digitVal b then some (digitVal b, rest)
    else if a.isDigit && 1 ≤ digitVal a then some (digitVal a, b :: rest)
    else Option.none
  | [a] => if a.isDigit && 1 ≤ digitVal a then some (digitVal a, []) else Option.none
  | [] => Option.none

/-- `%d`: `3[01] | [12]\d | 0[1-9] | [1-9]`. -/
def parseD : List Char → Option (Nat × List Char)
  | a :: b :: rest =>
    if a = '3' && b.isDigit && digitVal b ≤ 1 then some (30 + digitVal b, rest)
    else if (a = '1' || a = '2') && b.isDigit then some (digitVal a * 10 + digitVal b, rest)
    else if a = '0' && b.isDigit && 1 ≤ digitVal b then some (digitVal b, rest)
    else if a.isDigit && 1 ≤ digitVal a then some (digitVal a, b :: rest)
    else Option.none
  | [a] => if a.isDigit && 1 ≤ digitVal a then some (digitVal a, []) else Option.none
  | [] => Option.none

/-- Consume one expected literal character. -/
def expectChar (c : Char) : List Char → Option (List Char)
  | x :: rest => if x = c then some rest else Option.none
  | [] => Option.none

/-- A parsed calendar date `(year, month, day)`. -/
abbrev PyDate := Nat × Nat × Nat

/-- Gregorian leap-year rule (as in Python's `calendar`/`datetime`). -/
def isLeap (y : Nat) : Bool := (y % 4 == 0 && y % 100 != 0) || y % 400 == 0

/-- Days in a month, as validated by the `datetime` constructor. -/
def daysInMonth (y m : Nat) : Nat :=
  if m = 2 then (if isLeap y then 29 else 28)
  else if m = 4 ∨ m = 6 ∨ m = 9 ∨ m = 11 then 30
  else 31

/-- The `datetime.datetime` constructor's validation of the parsed fields
(`MINYEAR = 1`, `MAXYEAR = 9999`). -/
def validDate (y m d : Nat) : Bool :=
  1 ≤ y && y ≤ 9999 && 1 ≤ m && m ≤ 12 && 1 ≤ d && d ≤ daysInMonth y m

/-- The four patterns of `DATE_FORMATS` (`src/scrapper_bse.py:54`), in order:
`"%Y-%m-%d", "%d/%m/%Y", "%d-%m-%Y", "%Y/%m/%d"`. -/
inductive DateFmt where
  | ymdDash | dmySlash | dmyDash | ymdSlash
  deriving DecidableEq

/-- `strptime` against a `%Y<sep>%m<sep>%d` pattern (raw match, whole string). -/
def strptimeYMD (sep : Char) (cs : List Char) : Option PyDate :=
  match parseY cs with
  | some (y, cs) =>
    match expectChar sep cs with
    | some cs =>
      match parseM cs with
      | some (m, cs) =>
        match expectChar sep cs with
        | some cs =>
          match parseD cs with
          | some (d, cs) => if cs = [] then some (y, m, d) else Option.none
          | Option.none => Option.none
        | Option.none => Option.none
      | Option.none => Option.none
    | Option.none => Option.none
  | Option.none => Option.none

/-- `strptime` against a `%d<sep>%m<sep>%Y` pattern (raw match, whole string). -/
def strptimeDMY (sep : Char) (cs : List Char) : Option PyDate :=
  match parseD cs with
  | some (d, cs) =>
    match expectChar sep cs with
    | some cs =>
      match parseM cs with
      | some (m, cs) =>
        match expectChar sep cs with
        | some cs =>
          match parseY cs with
          | some (y, cs) => if cs = [] then some (y, m, d) else Option.none
          | Option.none => Option.none
        | Option.none => Option.none
      | Option.none => Option.none
    | Option.none => Option.none
  | Option.none => Option.none

/-- `datetime.strptime(s, fmt)` for one of the four formats: raw regex match
followed by the `datetime` constructor's validation. -/
def strptimeFmt (f : DateFmt) (cs : List Char) : Option PyDate :=
  let raw := match f with
    | .ymdDash => strptimeYMD '-' cs
    | .dmySlash => strptimeDMY '/' cs
    | .dmyDash => strptimeDMY '-' cs
    | .ymdSlash => strptimeYMD '/' cs
  match raw with
  | some (y, m, d) => if validDate y m d then some (y, m, d) else Option.none
  | Option.none => Option.none

/-- The `DATE_FORMATS` tuple, in source order. -/
def DATE_FORMATS : List DateFmt := [.ymdDash, .dmySlash, .dmyDash, .ymdSlash]

/-- The `for fmt in DATE_FORMATS: try ... except ValueError: pass` scan:
result of the first format that parses, if any. -/
def tryFormats (cs : List Char) : Option PyDate :=
  DATE_FORMATS.findSome? (fun f => strptimeFmt f cs)

/-- `d.strftime("%d/%m/%Y")`, as chars. -/
def renderDMYchars (d : PyDate) : List Char :=
  pad2chars d.2.2 ++ ('/' :: (pad2chars d.2.1 ++ ('/' :: pad4chars d.1)))

/-- `d.strftime("%d/%m/%Y")`, as a string. -/
def strftimeDDMMYYYY (d : PyDate) : String := String.mk (renderDMYchars d)

/-- Rendering of a date in each of the four accepted input formats
(zero-padded fields, as produced by `strftime` with the same patterns). -/
def renderFmt (f : DateFmt) (d : PyDate) : String :=
  match f with
  | .ymdDash =>
    String.mk (pad4chars d.1 ++ ('-' :: (pad2chars d.2.1 ++ ('-' :: pad2chars d.2.2))))
  | .dmySlash =>
    String.mk (pad2chars d.2.2 ++ ('/' :: (pad2chars d.2.1 ++ ('/' :: pad4chars d.1))))
  | .dmyDash =>
    String.mk (pad2chars d.2.2 ++ ('-' :: (pad2chars d.2.1 ++ ('-' :: pad4chars d.1))))
  | .ymdSlash =>
    String.mk (pad4chars d.1 ++ ('/' :: (pad2chars d.2.1 ++ ('/' :: pad2chars d.2.2))))

/-- `to_site_date(s)` from `src/scrapper_bse.py:58`; `today` abstracts
`datetime.date.today()`, `none` models Python `None`. A raised
`ValueError` is an `Except.error` carrying the message. -/
def to_site_date (today : PyDate) (s : Option String) : Except String String :=
  match s with
  | Option.none => Except.ok (strftimeDDMMYYYY today)
  | some s =>
    if s.data = [] then Except.ok (strftimeDDMMYYYY today)
    else
      let cs := pyStrip s.data
      match tryFormats cs with
      | some d => Except.ok (strftimeDDMMYYYY d)
      | Option.none => Except.error ("Invalid date: " ++ String.mk cs)

/-! ## The fetch orchestrator (`fetch_announcements`, `src/scrapper_bse.py:194`)

The network is abstracted by an oracle
`resp : Nat → Nat → Nat → Option PyVal` giving the value `_try_request`
returns for `(page, endpoint index, variant index)` — `none` models a
request whose GET and POST attempts both failed. The loop structure
(`while page <= max_pages`, `for url in ENDPOINTS`,
`for params in _param_variants(...)`, the `if not payload: continue` guard,
`got_any`, the `< 20` early `return`, and the `if not got_any: break`) is
embedded as-is. Each processed `(page, endpoint, variant)` attempt is
recorded in a request log (one `_try_request` call per attempt). -/

/-- A network oracle: response payload for `(page, endpoint, variant)`. -/
abbrev RespOracle := Nat → Nat → Nat → Option PyVal

/-- The `(endpoint, variant)` attempt order of one page iteration:
`ENDPOINTS` (2 URLs) outer, `_param_variants` (3 dicts) inner. -/
def attemptOrder : List (Nat × Nat) := [(0, 0), (0, 1), (0, 2), (1, 0), (1, 1), (1, 2)]

/-- Normalization applied to each raw row (`normalize_row(r)` — raw rows in
real payloads are dicts; a non-dict is read as the empty dict here). -/
def normalizeVal (v : PyVal) : Row :=
  match v with
  | .dict ps => normalize_row ps
  | _ => normalize_row []

/-- The raw row list an attempt contributes: `_extract_rows(payload)` when
the payload is present and truthy, `[]` when the attempt is skipped. -/
def rawRowsAt (resp : RespOracle) (page e v : Nat) : List PyVal :=
  match resp page e v with
  | some payload => if payload.truthy then extract_rows payload else []
  | Option.none => []

/-- The inner two `for` loops over one page. Arguments: remaining attempts,
accumulated `all_rows`, current `got_any`. Returns
`(all_rows, got_any, returned-early?, request log)`. -/
def tryPage (resp : RespOracle) (page : Nat) :
    List (Nat × Nat) → List Row → Bool → List Row × Bool × Bool × List (Nat × Nat × Nat)
  | [], acc, got => (acc, got, false, [])
  | (e, v) :: rest, acc, got =>
    match resp page e v with
    | Option.none =>
      let r := tryPage resp page rest acc got
      (r.1, r.2.1, r.2.2.1, (page, e, v) :: r.2.2.2)
    | some payload =>
      if !payload.truthy then
        let r := tryPage resp page rest acc got
        (r.1, r.2.1, r.2.2.1, (page, e, v) :: r.2.2.2)
      else
        let rows_raw := extract_rows payload
        if rows_raw.isEmpty then
          let r := tryPage resp page rest acc got
          (r.1, r.2.1, r.2.2.1, (page, e, v) :: r.2.2.2)
        else
          let acc2 := acc ++ rows_raw.map normalizeVal
          if rows_raw.length < 20 then (acc2, true, true, [(page, e, v)])
          else
            let r := tryPage resp page rest acc2 true
            (r.1, r.2.1, r.2.2.1, (page, e, v) :: r.2.2.2)

/-- The `while page <= max_pages` loop of `fetch_announcements`. Returns the
accumulated normalized rows and the log of issued requests. The structural
`fuel` argument bounds the iteration count; with `fuel ≥ maxp + 1 - page`
(as in `fetch_announcements`) the `page ≤ maxp` guard alone decides
termination, exactly as in the source. -/
def fetchLoop (resp : RespOracle) (maxp : Nat) : Nat → Nat → List Row →
    List Row × List (Nat × Nat × Nat)
  | 0, _, acc => (acc, [])
  | fuel + 1, page, acc =>
    if page ≤ maxp then
      let r := tryPage resp page attemptOrder acc false
      if r.2.2.1 then (r.1, r.2.2.2)
      else if r.2.1 then
        let next := fetchLoop resp maxp fuel (page + 1) r.1
        (next.1, r.2.2.2 ++ next.2)
      else (r.1, r.2.2.2)
    else (acc, [])

/-- `fetch_announcements(...)` (`src/scrapper_bse.py:194`) under the network
oracle: the returned `all_rows` together with the request log. -/
def fetch_announcements (resp : RespOracle) (maxp : Nat) : List Row × List (Nat × Nat × Nat) :=
  fetchLoop resp maxp (maxp + 1) 1 []

/-! Specification-level characterizations of the loop, used to state what
is accumulated (claims about the orchestrator). -/

/-- Does attempt `(page, e, v)` yield a non-empty raw row list of fewer than
20 rows (the condition triggering the early `return all_rows`)? -/
def smallYield (resp : RespOracle) (page e v : Nat) : Bool :=
  !(rawRowsAt resp page e v).isEmpty && (rawRowsAt resp page e v).length < 20

/-- Rows contributed by one page: every attempt's non-empty raw row list is
normalized and appended, in attempt order, stopping after the first attempt
yielding fewer than 20 rows. -/
def pageRowsSpec (resp : RespOracle) (page : Nat) : List (Nat × Nat) → List Row
  | [] => []
  | (e, v) :: rest =>
    (rawRowsAt resp page e v).map normalizeVal ++
      (if smallYield resp page e v then [] else pageRowsSpec resp page rest)

/-- Did some attempt of the page yield rows (`got_any`)? -/
def pageGotSpec (resp : RespOracle) (page : Nat) (l : List (Nat × Nat)) : Bool :=
  l.any (fun a => !(rawRowsAt resp page a.1 a.2).isEmpty)

/-- Did some attempt of the page trigger the early `return`? -/
def pageEarlySpec (resp : RespOracle) (page : Nat) (l : List (Nat × Nat)) : Bool :=
  l.any (fun a => smallYield resp page a.1 a.2)

/-- Requests logged while processing one page: every attempt in order,
stopping after an attempt that triggers the early `return`. -/
def pageLogSpec (resp : RespOracle) (page : Nat) : List (Nat × Nat) → List (Nat × Nat × Nat)
  | [] => []
  | (e, v) :: rest =>
    (page, e, v) :: (if smallYield resp page e v then [] else pageLogSpec resp page rest)

/-- Rows returned by the whole pagination loop, page by page: every page up
to the first early-returning or unproductive one contributes
`pageRowsSpec`. -/
def fetchRowsSpec (resp : RespOracle) (maxp : Nat) : Nat → Nat → List Row
  | 0, _ => []
  | fuel + 1, page =>
    if page ≤ maxp then
      if pageEarlySpec resp page attemptOrder then pageRowsSpec resp page attemptOrder
      else if pageGotSpec resp page attemptOrder then
        pageRowsSpec resp page attemptOrder ++ fetchRowsSpec resp maxp fuel (page + 1)
      else pageRowsSpec resp page attemptOrder
    else []

/-- Requests issued by the whole pagination loop, page by page. -/
def fetchLogSpec (resp : RespOracle) (maxp : Nat) : Nat → Nat → List (Nat × Nat × Nat)
  | 0, _ => []
  | fuel + 1, page =>
    if page ≤ maxp then
      if pageEarlySpec resp page attemptOrder then pageLogSpec resp page attemptOrder
      else if pageGotSpec resp page attemptOrder then
        pageLogSpec resp page attemptOrder ++ fetchLogSpec resp maxp fuel (page + 1)
      else pageLogSpec resp page attemptOrder
    else []

/-- A concrete twenty-row payload (a full page) for the oracle below. -/
def cexPayloadA : PyVal :=
  PyVal.dict [("Table", PyVal.list (List.replicate 20 (PyVal.dict [("NEWSID", PyVal.str "A")])))]

/-- A concrete one-row payload (a short page) for the oracle below. -/
def cexPayloadB : PyVal :=
  PyVal.dict [("Table", PyVal.list [PyVal.dict [("NEWSID", PyVal.str "B")]])]

/-- Concrete network oracle: on page 1, the first endpoint's first parameter
variant answers with a full page of 20 rows and its second variant with a
single row; every other request fails. -/
def respCex : RespOracle := fun p e v =>
  if p = 1 ∧ e = 0 ∧ v = 0 then some cexPayloadA
  else if p = 1 ∧ e = 0 ∧ v = 1 then some cexPayloadB
  else Option.none

/-! ## Deduplication lemmas -/

theorem dedupGo_eq_dedupSpec (rows : List Row) : ∀ seen : List PyVal,
    dedupGo seen rows = dedupSpec (rows.filter (fun r => decide (nidOf r ∉ seen))) := by
  induction rows with
  | nil => intro seen; simp [dedupGo, dedupSpec]
  | cons r rs ih =>
    intro seen
    by_cases ht : (nidOf r).truthy = true
    · by_cases hs : nidOf r ∈ seen
      · simp [dedupGo, ht, hs, ih]
      · simp only [dedupGo, ht, hs, not_false_iff, and_self, if_true,
          List.filter_cons, decide_not, ih (nidOf r :: seen)]
        simp only [hs, decide_False, Bool.not_false, if_true, dedupSpec, ht,
          List.filter_filter]
        congr 2
        refine List.filter_congr (fun x _ => ?_)
        by_cases hx : nidOf x = nidOf r <;> by_cases hx2 : nidOf x ∈ seen <;>
          simp [hx, hx2, List.mem_cons]
    · by_cases hs : nidOf r ∈ seen
      · simp [dedupGo, ht, hs, ih]
      · simp [dedupGo, ht, hs, ih, dedupSpec]

theorem dedup_eq_dedupSpec (rows : List Row) : dedup rows = dedupSpec rows := by
  rw [dedup, dedupGo_eq_dedupSpec]
  congr 1
  simp

theorem dedupSpec_sublist : ∀ l : List Row, (dedupSpec l).Sublist l := by
  intro l
  induction l using dedupSpec.induct with
  | case1 => simp [dedupSpec]
  | case2 r rs h ih =>
    rw [dedupSpec, if_pos h]
    exact (ih.trans (List.filter_sublist _)).cons₂ r
  | case3 r rs h ih =>
    rw [dedupSpec, if_neg h]
    exact ih.cons r

theorem mem_dedupSpec_truthy : ∀ (l : List Row) (x : Row),
    x ∈ dedupSpec l → (nidOf x).truthy = true := by
  intro l
  induction l using dedupSpec.induct with
  | case1 => simp [dedupSpec]
  | case2 r rs h ih =>
    intro x hx
    rw [dedupSpec, if_pos h] at hx
    rcases List.mem_cons.mp hx with rfl | hx
    · exact h
    · exact ih x hx
  | case3 r rs h ih =>
    intro x hx
    rw [dedupSpec, if_neg h] at hx
    exact ih x hx

theorem dedupSpec_pairwise : ∀ l : List Row,
    (dedupSpec l).Pairwise (fun a b => nidOf a ≠ nidOf b) := by
  intro l
  induction l using dedupSpec.induct with
  | case1 => simp [dedupSpec]
  | case2 r rs h ih =>
    rw [dedupSpec, if_pos h]
    refine List.Pairwise.cons (fun b hb => ?_) ih
    have hsub := dedupSpec_sublist (rs.filter (fun x => decide (nidOf x ≠ nidOf r)))
    have := hsub.subset hb
    have := List.of_mem_filter this
    simpa using fun hEq => by simp [hEq] at this
  | case3 r rs h ih =>
    rw [dedupSpec, if_neg h]
    exact ih

theorem dedupSpec_fixed : ∀ l : List Row,
    (∀ x ∈ l, (nidOf x).truthy = true) →
    l.Pairwise (fun a b => nidOf a ≠ nidOf b) →
    dedupSpec l = l := by
  intro l
  induction l with
  | nil => simp [dedupSpec]
  | cons r rs ih =>
    intro htr hpw
    have hr : (nidOf r).truthy = true := htr r (List.mem_cons_self r rs)
    rw [dedupSpec, if_pos hr]
    have hfilt : rs.filter (fun x => decide (nidOf x ≠ nidOf r)) = rs := by
      apply List.filter_eq_self.mpr
      intro x hx
      have := (List.pairwise_cons.mp hpw).1 x hx
      simpa using fun hEq => this hEq.symm
    rw [hfilt, ih (fun x hx => htr x (List.mem_cons_of_mem r hx)) (List.pairwise_cons.mp hpw).2]

theorem dedupCliGo_eq_dedupGo (rows : List Row) : ∀ seen : List PyVal,
    dedupCliGo seen rows = dedupGo seen rows := by
  induction rows with
  | nil => intro seen; rfl
  | cons r rs ih =>
    intro seen
    by_cases h : (nidOf r).truthy = true ∧ nidOf r ∉ seen
    · have : ¬(¬(nidOf r).truthy = true ∨ nidOf r ∈ seen) := by tauto
      simp [dedupCliGo, dedupGo, h, this, ih]
    · have : ¬(nidOf r).truthy = true ∨ nidOf r ∈ seen := by tauto
      simp [dedupCliGo, dedupGo, h, this, ih]

/-! ## Claim theorems: deduplication and facade -/

/-- C4: the deduplication step returns the subsequence of the input keeping
exactly the first occurrence of each non-empty (truthy) `news_id` — it equals
the first-occurrence-wins specification `dedupSpec`, is an order-preserving
subsequence of the input, contains no two records with the same `news_id`,
and every surviving record has a truthy (non-missing, non-`None`, non-empty)
`news_id`. -/
theorem C4_dedup_first_occurrence (rows : List Row) :
    dedup rows = dedupSpec rows ∧
    (dedup rows).Sublist rows ∧
    (dedup rows).Pairwise (fun a b => nidOf a ≠ nidOf b) ∧
    (∀ r ∈ dedup rows, (nidOf r).truthy = true) := by
  refine ⟨dedup_eq_dedupSpec rows, ?_, ?_, ?_⟩ <;> rw [dedup_eq_dedupSpec]
  · exact dedupSpec_sublist rows
  · exact dedupSpec_pairwise rows
  · exact fun r h => mem_dedupSpec_truthy rows r h

/-- Witness for C4 at a concrete input: a duplicate and an empty-id row are
dropped, and a surviving row has a truthy identifier. -/
theorem C4_dedup_first_occurrence_witness :
    dedup [[("news_id", PyVal.str "a")], [("news_id", PyVal.str "")],
           [("news_id", PyVal.str "a")], [("news_id", PyVal.str "b")]] =
      dedupSpec [[("news_id", PyVal.str "a")], [("news_id", PyVal.str "")],
                 [("news_id", PyVal.str "a")], [("news_id", PyVal.str "b")]] ∧
    (nidOf [("news_id", PyVal.str "a")]).truthy = true :=
  ⟨(C4_dedup_first_occurrence _).1,
   (C4_dedup_first_occurrence
      [[("news_id", PyVal.str "a")], [("news_id", PyVal.str "")],
       [("news_id", PyVal.str "a")], [("news_id", PyVal.str "b")]]).2.2.2
     [("news_id", PyVal.str "a")] (by decide)⟩

/-- C8: deduplication by `news_id` is idempotent — re-running the dedup loop
on its own output returns that output unchanged. -/
theorem C8_dedup_idempotent (rows : List Row) : dedup (dedup rows) = dedup rows := by
  rw [dedup_eq_dedupSpec (dedup rows), dedup_eq_dedupSpec rows]
  exact dedupSpec_fixed _ (fun x h => mem_dedupSpec_truthy rows x h) (dedupSpec_pairwise rows)

/-- C7: whatever the fetch call does — return rows or raise any exception —
the `/bse` handler returns a JSON object: on success a `count`/`rows` object
(deduplicated, truncated to 200), on any exception an `error`/`trace` object
carrying the traceback; no exception propagates (`get_bse` is total). -/
theorem C7_facade_always_json (outcome : FetchOutcome) :
    (∃ rows, outcome = FetchOutcome.ok rows ∧
      get_bse outcome = BseResponse.data (dedup rows).length ((dedup rows).take 200)) ∨
    (∃ trace, outcome = FetchOutcome.exc trace ∧
      get_bse outcome = BseResponse.err "Server crash" trace) := by
  cases outcome with
  | ok rows => exact Or.inl ⟨rows, rfl, rfl⟩
  | exc t => exact Or.inr ⟨t, rfl, rfl⟩

/-- C10: the facade's `count` is the length of the full deduplicated list
while `rows` is its first 200 entries, so `count` strictly exceeds the
returned row count exactly when more than 200 unique identifiers were
fetched; analogously for the CLI with a 50-row cap. -/
theorem C10_count_vs_truncation (rows data : List Row) :
    get_bse (FetchOutcome.ok rows) =
      BseResponse.data (dedup rows).length ((dedup rows).take 200) ∧
    (((dedup rows).take 200).length < (dedup rows).length ↔ 200 < (dedup rows).length) ∧
    cliOutput data = ((dedupCli data).length, (dedupCli data).take 50) ∧
    (((dedupCli data).take 50).length < (dedupCli data).length ↔ 50 < (dedupCli data).length) := by
  refine ⟨rfl, ?_, rfl, ?_⟩ <;> simp [List.length_take]

/-! ## Claim theorems: row extraction and normalization -/

/-- C5: `_extract_rows` returns the list at the first of the keys
`"Table","table","data","Data"` holding a list, else `payload["d"]["Table"]`
when `payload["d"]` is a dict holding a list there; `{"Table": [x]}`,
`{"data": [x]}` and `{"d": {"Table": [x]}}` all give `[x]`, and payloads of
none of these shapes — including non-dict payloads — give `[]`. -/
theorem C5_extract_rows (ps dps : Row) (xs : List PyVal) (x : PyVal) (payload : PyVal) :
    (firstListVal ps ["Table", "table", "data", "Data"] = some xs →
      extract_rows (PyVal.dict ps) = xs) ∧
    (dictGet ps "Table" = some (PyVal.list xs) → extract_rows (PyVal.dict ps) = xs) ∧
    (firstListVal ps ["Table", "table", "data", "Data"] = Option.none →
      dictGet ps "d" = some (PyVal.dict dps) →
      dictGet dps "Table" = some (PyVal.list xs) →
      extract_rows (PyVal.dict ps) = xs) ∧
    (firstListVal ps ["Table", "table", "data", "Data"] = Option.none →
      (∀ dps', dictGet ps "d" = some (PyVal.dict dps') →
        ∀ ys, dictGet dps' "Table" ≠ some (PyVal.list ys)) →
      extract_rows (PyVal.dict ps) = []) ∧
    ((∀ qs, payload ≠ PyVal.dict qs) → extract_rows payload = []) ∧
    extract_rows (PyVal.dict [("Table", PyVal.list [x])]) = [x] ∧
    extract_rows (PyVal.dict [("data", PyVal.list [x])]) = [x] ∧
    extract_rows (PyVal.dict [("d", PyVal.dict [("Table", PyVal.list [x])])]) = [x] := by
  refine ⟨?_, ?_, ?_, ?_, ?_, ?_, ?_, ?_⟩
  · intro h; simp [extract_rows, h]
  · intro h; simp [extract_rows, firstListVal, h]
  · intro h1 h2 h3; simp [extract_rows, h1, h2, h3]
  · intro h1 h2
    simp only [extract_rows, h1]
    cases hd : dictGet ps "d" with
    | none => rfl
    | some v =>
      cases v with
      | dict dps' =>
        have := h2 dps' hd
        cases ht : dictGet dps' "Table" with
        | none => simp [ht]
        | some w =>
          cases w <;> simp_all
      | none => rfl
      | bool b => rfl
      | int n => rfl
      | str s => rfl
      | list l => rfl
  · intro h
    cases payload with
    | dict qs => exact absurd rfl (h qs)
    | none => rfl
    | bool b => rfl
    | int n => rfl
    | str s => rfl
    | list l => rfl
  · rfl
  · rfl
  · rfl

/-- Witness for C5: a payload whose `"Table"` key is not a list falls back to
the later `"table"` key's list. -/
theorem C5_extract_rows_witness :
    extract_rows (PyVal.dict [("Table", PyVal.int 0), ("table", PyVal.list [PyVal.int 7])])
      = [PyVal.int 7] :=
  (C5_extract_rows [("Table", PyVal.int 0), ("table", PyVal.list [PyVal.int 7])]
    [] [PyVal.int 7] (PyVal.int 0) PyVal.none).1 (by decide)

/-- C6: `_make_pdf_url` — a missing/empty attachment name gives `None`; a
string name that (lowercased) starts with `"http"` passes through unchanged;
otherwise a flag stringifying to `"1"` selects the historical `AttachHis`
path and any other flag the live `AttachLive` path, each followed by the
(stringified) name. -/
theorem C6_make_pdf_url (row : Row) :
    ((safe_get row ["ATTACHMENTNAME", "ATTACHMENT", "FILE"] PyVal.none).truthy = false →
      make_pdf_url row = PyVal.none) ∧
    (∀ s, safe_get row ["ATTACHMENTNAME", "ATTACHMENT", "FILE"] PyVal.none = PyVal.str s →
      lowerStartsHttp s = true → make_pdf_url row = PyVal.str s) ∧
    ((safe_get row ["ATTACHMENTNAME", "ATTACHMENT", "FILE"] PyVal.none).truthy = true →
      (∀ s, safe_get row ["ATTACHMENTNAME", "ATTACHMENT", "FILE"] PyVal.none = PyVal.str s →
        lowerStartsHttp s = false) →
      (pyStr (safe_get row ["PDFFLAG", "pdfflag"] (PyVal.int 0)) = "1" →
        make_pdf_url row =
          PyVal.str ("https://www.bseindia.com/xml-data/corpfiling/AttachHis/"
            ++ pyStr (safe_get row ["ATTACHMENTNAME", "ATTACHMENT", "FILE"] PyVal.none))) ∧
      (pyStr (safe_get row ["PDFFLAG", "pdfflag"] (PyVal.int 0)) ≠ "1" →
        make_pdf_url row =
          PyVal.str ("https://www.bseindia.com/xml-data/corpfiling/AttachLive/"
            ++ pyStr (safe_get row ["ATTACHMENTNAME", "ATTACHMENT", "FILE"] PyVal.none)))) := by
  refine ⟨?_, ?_, ?_⟩
  · intro h
    simp [make_pdf_url, h]
  · intro s ha hh
    have hs : s ≠ "" := by
      intro hEmpty
      rw [hEmpty] at hh
      exact absurd hh (by decide)
    have ht : (PyVal.str s).truthy = true := by simp [PyVal.truthy, hs]
    simp [make_pdf_url, ha, ht, hh]
  · intro ht hn
    have hhttp : (match safe_get row ["ATTACHMENTNAME", "ATTACHMENT", "FILE"] PyVal.none with
        | PyVal.str s => lowerStartsHttp s
        | _ => false) = false := by
      cases hv : safe_get row ["ATTACHMENTNAME", "ATTACHMENT", "FILE"] PyVal.none with
      | str s => exact hn s hv
      | none => rfl
      | bool b => rfl
      | int n => rfl
      | list l => rfl
      | dict ps => rfl
    constructor
    · intro hf
      simp [make_pdf_url, ht, hhttp, hf]
    · intro hf
      simp [make_pdf_url, ht, hhttp, hf]

/-- Witness for C6: an attachment name not starting with `"http"` and a flag
stringifying to `"1"` produce the historical `AttachHis` URL. -/
theorem C6_make_pdf_url_witness :
    make_pdf_url [("ATTACHMENTNAME", PyVal.str "x.pdf"), ("PDFFLAG", PyVal.str "1")] =
      PyVal.str "https://www.bseindia.com/xml-data/corpfiling/AttachHis/x.pdf" :=
  ((C6_make_pdf_url [("ATTACHMENTNAME", PyVal.str "x.pdf"), ("PDFFLAG", PyVal.str "1")]).2.2
    (by decide) (fun s h => by cases h; decide)).1 (by decide)

/-- C9: `normalize_row` always returns a dict with exactly the nine output
keys in order; a looked-up value equal to `None` or `""` is treated as
absent by `_safe_get` (falls through to the next alias); a row whose news
identifier aliases are all absent/`None`/empty normalizes to
`news_id = None` and is consequently never kept by the dedup step. -/
theorem C9_normalize_row (r : Row) :
    (normalize_row r).map Prod.fst =
      ["datetime", "scrip_code", "scrip_name", "headline", "category",
       "subcategory", "news_id", "pdf_url", "detail_url"] ∧
    (∀ (k : String) (ks : List String) (dflt v : PyVal),
      dictGet r k = some v → (v = PyVal.none ∨ v = PyVal.str "") →
      safe_get r (k :: ks) dflt = safe_get r ks dflt) ∧
    ((∀ v, dictGet r "NEWSID" = some v → v = PyVal.none ∨ v = PyVal.str "") →
     (∀ v, dictGet r "newsid" = some v → v = PyVal.none ∨ v = PyVal.str "") →
      dictGet (normalize_row r) "news_id" = some PyVal.none ∧
      ∀ l : List Row, normalize_row r ∉ dedup l) := by
  refine ⟨rfl, ?_, ?_⟩
  · intro k ks dflt v h1 h2
    have : isNoneOrEmpty v = true := by rcases h2 with rfl | rfl <;> rfl
    simp [safe_get, h1, this]
  · intro hN hn
    have hsg : safe_get r ["NEWSID", "newsid"] PyVal.none = PyVal.none := by
      have step1 : safe_get r ["NEWSID", "newsid"] PyVal.none
          = safe_get r ["newsid"] PyVal.none := by
        cases h : dictGet r "NEWSID" with
        | none => simp [safe_get, h]
        | some v =>
          have : isNoneOrEmpty v = true := by rcases hN v h with rfl | rfl <;> rfl
          simp [safe_get, h, this]
      have step2 : safe_get r ["newsid"] PyVal.none = PyVal.none := by
        cases h : dictGet r "newsid" with
        | none => simp [safe_get, h]
        | some v =>
          have : isNoneOrEmpty v = true := by rcases hn v h with rfl | rfl <;> rfl
          simp [safe_get, h, this]
      rw [step1, step2]
    have hget : dictGet (normalize_row r) "news_id"
        = some (safe_get r ["NEWSID", "newsid"] PyVal.none) := by
      simp [dictGet, normalize_row, List.find?]
    refine ⟨by rw [hget, hsg], ?_⟩
    intro l hmem
    rw [dedup_eq_dedupSpec] at hmem
    have := mem_dedupSpec_truthy l _ hmem
    rw [nidOf, hget, hsg] at this
    simp [PyVal.truthy] at this

/-! ## Date lemmas (for the `to_site_date` claim) -/

theorem digitChar_isDigit {k : Nat} (h : k < 10) : (digitChar k).isDigit = true := by
  interval_cases k <;> decide

theorem digitVal_digitChar {k : Nat} (h : k < 10) : digitVal (digitChar k) = k := by
  interval_cases k <;> decide

theorem digitChar_ne_slash {k : Nat} (h : k < 10) : digitChar k ≠ '/' := by
  interval_cases k <;> decide

theorem digitChar_ne_dash {k : Nat} (h : k < 10) : digitChar k ≠ '-' := by
  interval_cases k <;> decide

theorem digitChar_not_ws {k : Nat} (h : k < 10) : (digitChar k).isWhitespace = false := by
  interval_cases k <;> decide

theorem parseY_pad4 {y : Nat} (h : y ≤ 9999) (rest : List Char) :
    parseY (pad4chars y ++ rest) = some (y, rest) := by
  have h1 : y / 1000 < 10 := by omega
  have h2 : y / 100 % 10 < 10 := by omega
  have h3 : y / 10 % 10 < 10 := by omega
  have h4 : y % 10 < 10 := by omega
  simp only [pad4chars, List.cons_append, List.nil_append, parseY,
    digitChar_isDigit h1, digitChar_isDigit h2, digitChar_isDigit h3, digitChar_isDigit h4,
    Bool.and_self, if_true, digitVal_digitChar h1, digitVal_digitChar h2,
    digitVal_digitChar h3, digitVal_digitChar h4, Option.some.injEq, Prod.mk.injEq]
  exact ⟨by omega, trivial⟩

theorem parseM_pad2 {m : Nat} (h1 : 1 ≤ m) (h2 : m ≤ 12) (rest : List Char) :
    parseM (pad2chars m ++ rest) = some (m, rest) := by
  interval_cases m <;> rfl

theorem parseD_pad2 {d : Nat} (h1 : 1 ≤ d) (h2 : d ≤ 31) (rest : List Char) :
    parseD (pad2chars d ++ rest) = some (d, rest) := by
  interval_cases d <;> rfl

theorem expectChar_same (c : Char) (rest : List Char) :
    expectChar c (c :: rest) = some rest := by
  simp [expectChar]

theorem parseY_pad4_nil {y : Nat} (h : y ≤ 9999) : parseY (pad4chars y) = some (y, []) := by
  have := parseY_pad4 h ([] : List Char)
  rwa [List.append_nil] at this

theorem parseD_pad2_nil {d : Nat} (h1 : 1 ≤ d) (h2 : d ≤ 31) :
    parseD (pad2chars d) = some (d, []) := by
  have := parseD_pad2 h1 h2 ([] : List Char)
  rwa [List.append_nil] at this

theorem strptimeYMD_render {y m d : Nat} (sep : Char) (hy2 : y ≤ 9999) (hm1 : 1 ≤ m)
    (hm2 : m ≤ 12) (hd1 : 1 ≤ d) (hd2 : d ≤ 31) :
    strptimeYMD sep (pad4chars y ++ (sep :: (pad2chars m ++ (sep :: pad2chars d))))
      = some (y, m, d) := by
  unfold strptimeYMD
  rw [parseY_pad4 hy2]
  simp [expectChar_same, parseM_pad2 hm1 hm2, parseD_pad2_nil hd1 hd2]

theorem strptimeDMY_render {y m d : Nat} (sep : Char) (hy2 : y ≤ 9999) (hm1 : 1 ≤ m)
    (hm2 : m ≤ 12) (hd1 : 1 ≤ d) (hd2 : d ≤ 31) :
    strptimeDMY sep (pad2chars d ++ (sep :: (pad2chars m ++ (sep :: pad4chars y))))
      = some (y, m, d) := by
  unfold strptimeDMY
  rw [parseD_pad2 hd1 hd2]
  simp [expectChar_same, parseM_pad2 hm1 hm2, parseY_pad4_nil hy2]

theorem validDate_true {y m d : Nat} (hy1 : 1 ≤ y) (hy2 : y ≤ 9999) (hm1 : 1 ≤ m)
    (hm2 : m ≤ 12) (hd1 : 1 ≤ d) (hd2 : d ≤ daysInMonth y m) :
    validDate y m d = true := by
  simp [validDate]
  omega

theorem daysInMonth_le (y m : Nat) : daysInMonth y m ≤ 31 := by
  unfold daysInMonth
  split_ifs <;> omega

theorem parseY_fail_third (a b c e : Char) (rest : List Char) (h : c.isDigit = false) :
    parseY (a :: b :: c :: e :: rest) = Option.none := by
  simp [parseY, h]

theorem strptimeYMD_fail_four (sep a b c e : Char) (rest : List Char) (h : c.isDigit = false) :
    strptimeYMD sep (a :: b :: c :: e :: rest) = Option.none := by
  unfold strptimeYMD
  rw [parseY_fail_third a b c e rest h]

theorem strptimeYMD_fail_sep (sep sep' : Char) {y : Nat} (hy2 : y ≤ 9999) (hne : sep' ≠ sep)
    (rest : List Char) :
    strptimeYMD sep (pad4chars y ++ (sep' :: rest)) = Option.none := by
  unfold strptimeYMD
  rw [parseY_pad4 hy2]
  simp [expectChar, hne]

theorem parseD_shapes (a b : Char) (rest : List Char) :
    parseD (a :: b :: rest) = Option.none ∨
    (∃ x, parseD (a :: b :: rest) = some (x, rest)) ∨
    (∃ x, parseD (a :: b :: rest) = some (x, b :: rest)) := by
  simp only [parseD]
  split_ifs <;> simp

theorem strptimeDMY_fail_yf (sep c1 c2 c3 c4 : Char) (rest : List Char)
    (h2 : c2 ≠ sep) (h3 : c3 ≠ sep) :
    strptimeDMY sep (c1 :: c2 :: c3 :: c4 :: rest) = Option.none := by
  unfold strptimeDMY
  rcases parseD_shapes c1 c2 (c3 :: c4 :: rest) with h | ⟨x, h⟩ | ⟨x, h⟩ <;> rw [h] <;>
    simp [expectChar, h2, h3]

theorem strptimeYMD_fail_dmyInput (sep sep' : Char) {d m y : Nat}
    (hnd : sep'.isDigit = false) :
    strptimeYMD sep (pad2chars d ++ (sep' :: (pad2chars m ++ (sep' :: pad4chars y))))
      = Option.none := by
  simpa [pad2chars, pad4chars] using
    strptimeYMD_fail_four sep (digitChar (d / 10)) (digitChar (d % 10)) sep'
      (digitChar (m / 10))
      (digitChar (m % 10) :: sep' :: digitChar (y / 1000) :: digitChar (y / 100 % 10)
        :: digitChar (y / 10 % 10) :: [digitChar (y % 10)]) hnd

theorem strptimeDMY_fail_on_pad4 (sep : Char) {y : Nat} (rest : List Char)
    (hs2 : digitChar (y / 100 % 10) ≠ sep) (hs3 : digitChar (y / 10 % 10) ≠ sep) :
    strptimeDMY sep (pad4chars y ++ rest) = Option.none := by
  simpa [pad4chars] using
    strptimeDMY_fail_yf sep (digitChar (y / 1000)) (digitChar (y / 100 % 10))
      (digitChar (y / 10 % 10)) (digitChar (y % 10)) rest hs2 hs3

theorem strptimeDMY_fail_mixed (sep sep' : Char) {d m : Nat} (rest : List Char)
    (h2 : digitChar (d % 10) ≠ sep) (h3 : sep' ≠ sep) :
    strptimeDMY sep (pad2chars d ++ (sep' :: (pad2chars m ++ rest))) = Option.none := by
  simpa [pad2chars] using
    strptimeDMY_fail_yf sep (digitChar (d / 10)) (digitChar (d % 10)) sep'
      (digitChar (m / 10)) (digitChar (m % 10) :: rest) h2 h3

/-- Witness for C9: a row whose `NEWSID` is the empty string normalizes to
`news_id = None` and is dropped by deduplication. -/
theorem C9_normalize_row_witness :
    dictGet (normalize_row [("NEWSID", PyVal.str "")]) "news_id" = some PyVal.none ∧
    normalize_row [("NEWSID", PyVal.str "")] ∉
      dedup [normalize_row [("NEWSID", PyVal.str "")]] :=
  ⟨((C9_normalize_row [("NEWSID", PyVal.str "")]).2.2
      (fun v h => by cases h; exact Or.inr rfl) (fun v h => by cases h)).1,
   ((C9_normalize_row [("NEWSID", PyVal.str "")]).2.2
      (fun v h => by cases h; exact Or.inr rfl) (fun v h => by cases h)).2
     [normalize_row [("NEWSID", PyVal.str "")]]⟩

theorem pyStrip_sandwich (a b : Char) (l : List Char) (ha : a.isWhitespace = false)
    (hb : b.isWhitespace = false) : pyStrip (a :: (l ++ [b])) = a :: (l ++ [b]) := by
  unfold pyStrip
  have h1 : List.dropWhile Char.isWhitespace (a :: (l ++ [b])) = a :: (l ++ [b]) := by
    rw [List.dropWhile_cons]
    simp [ha]
  rw [h1]
  have h2 : (a :: (l ++ [b])).reverse = b :: (l.reverse ++ [a]) := by simp
  rw [h2, List.dropWhile_cons]
  simp [hb]

theorem pyStrip_ymd {y m d : Nat} (hy : y ≤ 9999) (sep : Char) :
    pyStrip (pad4chars y ++ (sep :: (pad2chars m ++ (sep :: pad2chars d))))
      = pad4chars y ++ (sep :: (pad2chars m ++ (sep :: pad2chars d))) := by
  have ha := digitChar_not_ws (show y / 1000 < 10 by omega)
  have hb := digitChar_not_ws (show d % 10 < 10 by omega)
  simpa [pad4chars, pad2chars] using
    pyStrip_sandwich (digitChar (y / 1000)) (digitChar (d % 10))
      [digitChar (y / 100 % 10), digitChar (y / 10 % 10), digitChar (y % 10), sep,
       digitChar (m / 10), digitChar (m % 10), sep, digitChar (d / 10)] ha hb

theorem pyStrip_dmy {y m d : Nat} (hd : d ≤ 99) (sep : Char) :
    pyStrip (pad2chars d ++ (sep :: (pad2chars m ++ (sep :: pad4chars y))))
      = pad2chars d ++ (sep :: (pad2chars m ++ (sep :: pad4chars y))) := by
  have ha := digitChar_not_ws (show d / 10 < 10 by omega)
  have hb := digitChar_not_ws (show y % 10 < 10 by omega)
  simpa [pad4chars, pad2chars] using
    pyStrip_sandwich (digitChar (d / 10)) (digitChar (y % 10))
      [digitChar (d % 10), sep, digitChar (m / 10), digitChar (m % 10), sep,
       digitChar (y / 1000), digitChar (y / 100 % 10), digitChar (y / 10 % 10)] ha hb

theorem tryFormats_ymdDash {y m d : Nat} (hy1 : 1 ≤ y) (hy2 : y ≤ 9999) (hm1 : 1 ≤ m)
    (hm2 : m ≤ 12) (hd1 : 1 ≤ d) (hd2 : d ≤ daysInMonth y m) :
    tryFormats (pad4chars y ++ ('-' :: (pad2chars m ++ ('-' :: pad2chars d))))
      = some (y, m, d) := by
  have hd31 : d ≤ 31 := le_trans hd2 (daysInMonth_le y m)
  simp [tryFormats, DATE_FORMATS, List.findSome?, strptimeFmt,
    strptimeYMD_render '-' hy2 hm1 hm2 hd1 hd31,
    validDate_true hy1 hy2 hm1 hm2 hd1 hd2]

theorem tryFormats_dmySlash {y m d : Nat} (hy1 : 1 ≤ y) (hy2 : y ≤ 9999) (hm1 : 1 ≤ m)
    (hm2 : m ≤ 12) (hd1 : 1 ≤ d) (hd2 : d ≤ daysInMonth y m) :
    tryFormats (pad2chars d ++ ('/' :: (pad2chars m ++ ('/' :: pad4chars y))))
      = some (y, m, d) := by
  have hd31 : d ≤ 31 := le_trans hd2 (daysInMonth_le y m)
  simp [tryFormats, DATE_FORMATS, List.findSome?, strptimeFmt,
    strptimeYMD_fail_dmyInput '-' '/' (by decide),
    strptimeDMY_render '/' hy2 hm1 hm2 hd1 hd31,
    validDate_true hy1 hy2 hm1 hm2 hd1 hd2]

theorem tryFormats_dmyDash {y m d : Nat} (hy1 : 1 ≤ y) (hy2 : y ≤ 9999) (hm1 : 1 ≤ m)
    (hm2 : m ≤ 12) (hd1 : 1 ≤ d) (hd2 : d ≤ daysInMonth y m) :
    tryFormats (pad2chars d ++ ('-' :: (pad2chars m ++ ('-' :: pad4chars y))))
      = some (y, m, d) := by
  have hd31 : d ≤ 31 := le_trans hd2 (daysInMonth_le y m)
  simp [tryFormats, DATE_FORMATS, List.findSome?, strptimeFmt,
    strptimeYMD_fail_dmyInput '-' '-' (by decide),
    strptimeDMY_fail_mixed '/' '-' ('-' :: pad4chars y)
      (digitChar_ne_slash (show d % 10 < 10 by omega)) (by decide),
    strptimeDMY_render '-' hy2 hm1 hm2 hd1 hd31,
    validDate_true hy1 hy2 hm1 hm2 hd1 hd2]

theorem tryFormats_ymdSlash {y m d : Nat} (hy1 : 1 ≤ y) (hy2 : y ≤ 9999) (hm1 : 1 ≤ m)
    (hm2 : m ≤ 12) (hd1 : 1 ≤ d) (hd2 : d ≤ daysInMonth y m) :
    tryFormats (pad4chars y ++ ('/' :: (pad2chars m ++ ('/' :: pad2chars d))))
      = some (y, m, d) := by
  have hd31 : d ≤ 31 := le_trans hd2 (daysInMonth_le y m)
  simp [tryFormats, DATE_FORMATS, List.findSome?, strptimeFmt,
    strptimeYMD_fail_sep '-' '/' hy2 (by decide),
    strptimeDMY_fail_on_pad4 '/'
      ('/' :: (pad2chars m ++ ('/' :: pad2chars d)))
      (digitChar_ne_slash (show y / 100 % 10 < 10 by omega))
      (digitChar_ne_slash (show y / 10 % 10 < 10 by omega)),
    strptimeDMY_fail_on_pad4 '-'
      ('/' :: (pad2chars m ++ ('/' :: pad2chars d)))
      (digitChar_ne_dash (show y / 100 % 10 < 10 by omega))
      (digitChar_ne_dash (show y / 10 % 10 < 10 by omega)),
    strptimeYMD_render '/' hy2 hm1 hm2 hd1 hd31,
    validDate_true hy1 hy2 hm1 hm2 hd1 hd2]

/-- C3: for every calendar date rendered in any of the four supported formats,
`to_site_date` returns the same canonical `DD/MM/YYYY` string; for every
non-empty string on which all four formats fail to parse it raises
`ValueError` ("Invalid date: ..."); for `None`/empty input it returns
today's date in `DD/MM/YYYY`. -/
theorem C3_to_site_date (today : PyDate) (y m d : Nat) (hy1 : 1 ≤ y) (hy2 : y ≤ 9999)
    (hm1 : 1 ≤ m) (hm2 : m ≤ 12) (hd1 : 1 ≤ d) (hd2 : d ≤ daysInMonth y m) :
    (∀ f : DateFmt, to_site_date today (some (renderFmt f (y, m, d)))
      = Except.ok (strftimeDDMMYYYY (y, m, d))) ∧
    (∀ s : String, s.data ≠ [] →
      (∀ f : DateFmt, strptimeFmt f (pyStrip s.data) = Option.none) →
      to_site_date today (some s)
        = Except.error ("Invalid date: " ++ String.mk (pyStrip s.data))) ∧
    to_site_date today Option.none = Except.ok (strftimeDDMMYYYY today) ∧
    to_site_date today (some "") = Except.ok (strftimeDDMMYYYY today) := by
  have hd99 : d ≤ 99 := le_trans hd2 (le_trans (daysInMonth_le y m) (by omega))
  refine ⟨?_, ?_, rfl, rfl⟩
  · intro f
    cases f with
    | ymdDash =>
      have hne : (pad4chars y ++ ('-' :: (pad2chars m ++ ('-' :: pad2chars d))))
          ≠ ([] : List Char) := by simp [pad4chars]
      simp only [renderFmt, to_site_date]
      rw [if_neg hne, pyStrip_ymd hy2 '-', tryFormats_ymdDash hy1 hy2 hm1 hm2 hd1 hd2]
    | dmySlash =>
      have hne : (pad2chars d ++ ('/' :: (pad2chars m ++ ('/' :: pad4chars y))))
          ≠ ([] : List Char) := by simp [pad2chars]
      simp only [renderFmt, to_site_date]
      rw [if_neg hne, pyStrip_dmy hd99 '/', tryFormats_dmySlash hy1 hy2 hm1 hm2 hd1 hd2]
    | dmyDash =>
      have hne : (pad2chars d ++ ('-' :: (pad2chars m ++ ('-' :: pad4chars y))))
          ≠ ([] : List Char) := by simp [pad2chars]
      simp only [renderFmt, to_site_date]
      rw [if_neg hne, pyStrip_dmy hd99 '-', tryFormats_dmyDash hy1 hy2 hm1 hm2 hd1 hd2]
    | ymdSlash =>
      have hne : (pad4chars y ++ ('/' :: (pad2chars m ++ ('/' :: pad2chars d))))
          ≠ ([] : List Char) := by simp [pad4chars]
      simp only [renderFmt, to_site_date]
      rw [if_neg hne, pyStrip_ymd hy2 '/', tryFormats_ymdSlash hy1 hy2 hm1 hm2 hd1 hd2]
  · intro s hs hfail
    simp only [to_site_date]
    rw [if_neg hs]
    have : tryFormats (pyStrip s.data) = Option.none := by
      simp [tryFormats, DATE_FORMATS, List.findSome?, hfail DateFmt.ymdDash,
        hfail DateFmt.dmySlash, hfail DateFmt.dmyDash, hfail DateFmt.ymdSlash]
    rw [this]

/-- Witness for C3 at 29 February 2024 (leap day), two input formats, one
unparseable string, and the `None` default. -/
theorem C3_to_site_date_witness :
    ((1:Nat) ≤ 2024 ∧ (2024:Nat) ≤ 9999 ∧ (1:Nat) ≤ 2 ∧ (2:Nat) ≤ 12 ∧ (1:Nat) ≤ 29 ∧
      (29:Nat) ≤ daysInMonth 2024 2) ∧
    to_site_date (2025, 10, 12) (some (renderFmt DateFmt.ymdDash (2024, 2, 29)))
      = Except.ok (strftimeDDMMYYYY (2024, 2, 29)) ∧
    to_site_date (2025, 10, 12) (some (renderFmt DateFmt.dmySlash (2024, 2, 29)))
      = Except.ok (strftimeDDMMYYYY (2024, 2, 29)) ∧
    to_site_date (2025, 10, 12) (some "not-a-date")
      = Except.error ("Invalid date: " ++ String.mk (pyStrip "not-a-date".data)) ∧
    to_site_date (2025, 10, 12) Option.none = Except.ok (strftimeDDMMYYYY (2025, 10, 12)) :=
  ⟨⟨by decide, by decide, by decide, by decide, by decide, by decide⟩,
   (C3_to_site_date (2025, 10, 12) 2024 2 29 (by decide) (by decide) (by decide) (by decide)
     (by decide) (by decide)).1 DateFmt.ymdDash,
   (C3_to_site_date (2025, 10, 12) 2024 2 29 (by decide) (by decide) (by decide) (by decide)
     (by decide) (by decide)).1 DateFmt.dmySlash,
   (C3_to_site_date (2025, 10, 12) 2024 2 29 (by decide) (by decide) (by decide) (by decide)
     (by decide) (by decide)).2.1 "not-a-date" (by decide) (fun f => by cases f <;> decide),
   (C3_to_site_date (2025, 10, 12) 2024 2 29 (by decide) (by decide) (by decide) (by decide)
     (by decide) (by decide)).2.2.1⟩

theorem tryPage_eq (resp : RespOracle) (page : Nat) :
    ∀ (l : List (Nat × Nat)) (acc : List Row) (got : Bool),
    tryPage resp page l acc got =
      (acc ++ pageRowsSpec resp page l, got || pageGotSpec resp page l,
        pageEarlySpec resp page l, pageLogSpec resp page l) := by
  intro l
  induction l with
  | nil =>
    intro acc got
    simp [tryPage, pageRowsSpec, pageGotSpec, pageEarlySpec, pageLogSpec]
  | cons a rest ih =>
    intro acc got
    obtain ⟨e, v⟩ := a
    cases hr : resp page e v with
    | none =>
      have hraw : rawRowsAt resp page e v = [] := by simp [rawRowsAt, hr]
      simp [tryPage, hr, ih, pageRowsSpec, pageGotSpec, pageEarlySpec, pageLogSpec,
        hraw, smallYield]
    | some payload =>
      by_cases ht : payload.truthy = true
      · have hraw : rawRowsAt resp page e v = extract_rows payload := by
          simp [rawRowsAt, hr, ht]
        by_cases hemp : extract_rows payload = []
        · have hsy : smallYield resp page e v = false := by
            simp [smallYield, hraw, hemp]
          simp [tryPage, hr, ht, hemp, ih, pageRowsSpec, pageGotSpec, pageEarlySpec,
            pageLogSpec, hraw, hsy]
        · by_cases hlen : (extract_rows payload).length < 20
          · have hsy : smallYield resp page e v = true := by
              simp [smallYield, hraw, hemp, hlen, List.isEmpty_iff]
            simp [tryPage, hr, ht, hemp, hlen, pageRowsSpec, pageGotSpec, pageEarlySpec,
              pageLogSpec, hraw, hsy, List.isEmpty_iff]
          · have hsy : smallYield resp page e v = false := by
              simp [smallYield, hraw, hemp, hlen, List.isEmpty_iff]
            simp [tryPage, hr, ht, hemp, hlen, ih, pageRowsSpec, pageGotSpec,
              pageEarlySpec, pageLogSpec, hraw, hsy, List.isEmpty_iff]
      · have hraw : rawRowsAt resp page e v = [] := by
          simp [rawRowsAt, hr, ht]
        simp [tryPage, hr, ht, ih, pageRowsSpec, pageGotSpec, pageEarlySpec, pageLogSpec,
          hraw, smallYield]

theorem fetchLoop_eq (resp : RespOracle) (maxp : Nat) :
    ∀ (fuel page : Nat) (acc : List Row),
    fetchLoop resp maxp fuel page acc =
      (acc ++ fetchRowsSpec resp maxp fuel page, fetchLogSpec resp maxp fuel page) := by
  intro fuel
  induction fuel with
  | zero => intro page acc; simp [fetchLoop, fetchRowsSpec, fetchLogSpec]
  | succ fuel ih =>
    intro page acc
    by_cases hp : page ≤ maxp
    · simp only [fetchLoop, fetchRowsSpec, fetchLogSpec, hp, if_true, tryPage_eq]
      by_cases he : pageEarlySpec resp page attemptOrder = true
      · simp [he]
      · by_cases hg : pageGotSpec resp page attemptOrder = true
        · simp [he, hg, ih, List.append_assoc]
        · simp [he, hg]
    · simp [fetchLoop, fetchRowsSpec, fetchLogSpec, hp]

theorem fetch_announcements_eq (resp : RespOracle) (maxp : Nat) :
    fetch_announcements resp maxp =
      (fetchRowsSpec resp maxp (maxp + 1) 1, fetchLogSpec resp maxp (maxp + 1) 1) := by
  rw [fetch_announcements, fetchLoop_eq]
  simp

theorem pageLogSpec_mem (resp : RespOracle) (page : Nat) :
    ∀ (l : List (Nat × Nat)) (p e v : Nat), (p, e, v) ∈ pageLogSpec resp page l →
      p = page ∧ (e, v) ∈ l := by
  intro l
  induction l with
  | nil => intro p e v h; simp [pageLogSpec] at h
  | cons a rest ih =>
    intro p e v h
    obtain ⟨e', v'⟩ := a
    rw [pageLogSpec] at h
    rcases List.mem_cons.mp h with heq | hmem
    · obtain ⟨h1, h2, h3⟩ := Prod.mk.injEq .. ▸ heq
      exact ⟨by simp_all, by simp_all⟩
    · by_cases hsy : smallYield resp page e' v' = true
      · simp [hsy] at hmem
      · simp only [hsy, Bool.false_eq_true, if_false] at hmem
        obtain ⟨hp, hm⟩ := ih p e v hmem
        exact ⟨hp, List.mem_cons_of_mem _ hm⟩

theorem pageEarlySpec_of_small (resp : RespOracle) (page : Nat) (l : List (Nat × Nat))
    (e v : Nat) (hm : (e, v) ∈ l) (hs : smallYield resp page e v = true) :
    pageEarlySpec resp page l = true := by
  unfold pageEarlySpec
  exact List.any_eq_true.mpr ⟨(e, v), hm, hs⟩

theorem pageLogSpec_small_last (resp : RespOracle) (page : Nat) :
    ∀ (l : List (Nat × Nat)) (e v : Nat),
      (page, e, v) ∈ pageLogSpec resp page l → smallYield resp page e v = true →
      (pageLogSpec resp page l).getLast? = some (page, e, v) := by
  intro l
  induction l with
  | nil => intro e v h _; simp [pageLogSpec] at h
  | cons a rest ih =>
    intro e v h hs
    obtain ⟨e', v'⟩ := a
    rw [pageLogSpec] at h ⊢
    by_cases hsy : smallYield resp page e' v' = true
    · simp only [hsy, if_true] at h ⊢
      rcases List.mem_cons.mp h with heq | hmem
      · rw [heq]; rfl
      · simp at hmem
    · simp only [hsy, Bool.false_eq_true, if_false] at h ⊢
      rcases List.mem_cons.mp h with heq | hmem
      · exfalso
        have h23 : e = e' ∧ v = v' := by simpa using heq
        obtain ⟨rfl, rfl⟩ := h23
        exact hsy hs
      · have hlast := ih e v hmem hs
        have hne : pageLogSpec resp page rest ≠ [] := by
          intro hnil; rw [hnil] at hmem; simp at hmem
        obtain ⟨b, l', hbl⟩ := List.exists_cons_of_ne_nil hne
        rw [hbl] at hlast ⊢
        rw [List.getLast?_cons_cons, hlast]

theorem pageRowsSpec_small_suffix (resp : RespOracle) (page : Nat) :
    ∀ (l : List (Nat × Nat)) (e v : Nat),
      (page, e, v) ∈ pageLogSpec resp page l → smallYield resp page e v = true →
      ∃ pre, pageRowsSpec resp page l = pre ++ (rawRowsAt resp page e v).map normalizeVal := by
  intro l
  induction l with
  | nil => intro e v h _; simp [pageLogSpec] at h
  | cons a rest ih =>
    intro e v h hs
    obtain ⟨e', v'⟩ := a
    rw [pageLogSpec] at h
    rw [pageRowsSpec]
    by_cases hsy : smallYield resp page e' v' = true
    · simp only [hsy, if_true] at h ⊢
      rcases List.mem_cons.mp h with heq | hmem
      · have h23 : e = e' ∧ v = v' := by simpa using heq
        obtain ⟨rfl, rfl⟩ := h23
        exact ⟨[], by simp⟩
      · simp at hmem
    · simp only [hsy, Bool.false_eq_true, if_false] at h ⊢
      rcases List.mem_cons.mp h with heq | hmem
      · exfalso
        have h23 : e = e' ∧ v = v' := by simpa using heq
        obtain ⟨rfl, rfl⟩ := h23
        exact hsy hs
      · obtain ⟨pre, hpre⟩ := ih e v hmem hs
        exact ⟨(rawRowsAt resp page e' v').map normalizeVal ++ pre, by
          rw [hpre, List.append_assoc]⟩

theorem fetchLogSpec_mem_lb (resp : RespOracle) (maxp : Nat) :
    ∀ (fuel page : Nat) (q : Nat × Nat × Nat), q ∈ fetchLogSpec resp maxp fuel page →
      page ≤ q.1 := by
  intro fuel
  induction fuel with
  | zero => intro page q h; simp [fetchLogSpec] at h
  | succ fuel ih =>
    intro page q h
    rw [fetchLogSpec] at h
    by_cases hp : page ≤ maxp
    · simp only [hp, if_true] at h
      obtain ⟨p, e, v⟩ := q
      by_cases he : pageEarlySpec resp page attemptOrder = true
      · simp only [he, if_true] at h
        have := (pageLogSpec_mem resp page attemptOrder p e v h).1
        omega
      · simp only [he, Bool.false_eq_true, if_false] at h
        by_cases hg : pageGotSpec resp page attemptOrder = true
        · simp only [hg, if_true] at h
          rcases List.mem_append.mp h with h1 | h2
          · have := (pageLogSpec_mem resp page attemptOrder p e v h1).1
            omega
          · have := ih (page + 1) (p, e, v) h2
            simp at this ⊢
            omega
        · simp only [hg, Bool.false_eq_true, if_false] at h
          have := (pageLogSpec_mem resp page attemptOrder p e v h).1
          omega
    · simp [hp] at h

theorem getLast?_append_right {α : Type} (l₁ l₂ : List α) (h : l₂ ≠ []) :
    (l₁ ++ l₂).getLast? = l₂.getLast? := by
  induction l₁ with
  | nil => simp
  | cons a t ih =>
    obtain ⟨b, l', rfl⟩ := List.exists_cons_of_ne_nil h
    rw [List.cons_append]
    cases ht : t ++ b :: l' with
    | nil => simp at ht
    | cons c u =>
      rw [List.getLast?_cons_cons]
      rw [← ht, ih]

theorem fetchLogSpec_small (resp : RespOracle) (maxp : Nat) :
    ∀ (fuel page p e v : Nat),
      (p, e, v) ∈ fetchLogSpec resp maxp fuel page → smallYield resp p e v = true →
      (∀ q ∈ fetchLogSpec resp maxp fuel page, q.1 ≤ p) ∧
      (fetchLogSpec resp maxp fuel page).getLast? = some (p, e, v) ∧
      ∃ pre, fetchRowsSpec resp maxp fuel page
        = pre ++ (rawRowsAt resp p e v).map normalizeVal := by
  intro fuel
  induction fuel with
  | zero => intro page p e v h _; simp [fetchLogSpec] at h
  | succ fuel ih =>
    intro page p e v h hs
    rw [fetchLogSpec] at h
    by_cases hp : page ≤ maxp
    · simp only [hp, if_true] at h
      by_cases he : pageEarlySpec resp page attemptOrder = true
      · simp only [he, if_true] at h
        obtain ⟨hpage, hmem⟩ := pageLogSpec_mem resp page attemptOrder p e v h
        subst hpage
        refine ⟨?_, ?_, ?_⟩
        · intro q hq
          rw [fetchLogSpec] at hq
          simp only [hp, if_true, he, if_true] at hq
          obtain ⟨qp, qe, qv⟩ := q
          have := (pageLogSpec_mem resp p attemptOrder qp qe qv hq).1
          simp [this]
        · rw [fetchLogSpec]; simp only [hp, if_true, he, if_true]
          exact pageLogSpec_small_last resp p attemptOrder e v h hs
        · rw [fetchRowsSpec]; simp only [hp, if_true, he, if_true]
          exact pageRowsSpec_small_suffix resp p attemptOrder e v h hs
      · simp only [he, Bool.false_eq_true, if_false] at h
        by_cases hg : pageGotSpec resp page attemptOrder = true
        · simp only [hg, if_true] at h
          rcases List.mem_append.mp h with h1 | h2
          · exfalso
            obtain ⟨hpage, hmem⟩ := pageLogSpec_mem resp page attemptOrder p e v h1
            subst hpage
            exact he (pageEarlySpec_of_small resp p attemptOrder e v hmem hs)
          · obtain ⟨hbound, hlast, pre, hrows⟩ := ih (page + 1) p e v h2 hs
            have hrecne : fetchLogSpec resp maxp fuel (page + 1) ≠ [] := by
              intro hnil; rw [hnil] at h2; simp at h2
            refine ⟨?_, ?_, ?_⟩
            · intro q hq
              rw [fetchLogSpec] at hq; simp only [hp, if_true, he, Bool.false_eq_true,
                if_false, hg] at hq
              rcases List.mem_append.mp hq with hq1 | hq2
              · obtain ⟨qp, qe, qv⟩ := q
                have hqp := (pageLogSpec_mem resp page attemptOrder qp qe qv hq1).1
                have hplb := fetchLogSpec_mem_lb resp maxp fuel (page + 1) (p, e, v) h2
                simp at hplb ⊢
                omega
              · exact hbound q hq2
            · rw [fetchLogSpec]; simp only [hp, if_true, he, Bool.false_eq_true,
                if_false, hg, if_true]
              rw [getLast?_append_right _ _ hrecne, hlast]
            · rw [fetchRowsSpec]; simp only [hp, if_true, he, Bool.false_eq_true,
                if_false, hg, if_true]
              exact ⟨pageRowsSpec resp page attemptOrder ++ pre, by
                rw [hrows, List.append_assoc]⟩
        · simp only [hg, Bool.false_eq_true, if_false] at h
          exfalso
          obtain ⟨hpage, hmem⟩ := pageLogSpec_mem resp page attemptOrder p e v h
          subst hpage
          exact he (pageEarlySpec_of_small resp p attemptOrder e v hmem hs)
    · simp [hp] at h

/-- C2: whenever a processed variant yields a non-empty raw row list of
fewer than 20 rows for some page, `fetch_announcements` returns immediately
after accumulating those rows: that request is the last one logged, no
logged request targets a higher page number, and the returned rows end with
that variant's normalized batch. -/
theorem C2_small_yield_stops_pagination (resp : RespOracle) (maxp p e v : Nat)
    (hmem : (p, e, v) ∈ (fetch_announcements resp maxp).2)
    (hs : smallYield resp p e v = true) :
    (∀ q ∈ (fetch_announcements resp maxp).2, q.1 ≤ p) ∧
    (fetch_announcements resp maxp).2.getLast? = some (p, e, v) ∧
    ∃ pre, (fetch_announcements resp maxp).1
      = pre ++ (rawRowsAt resp p e v).map normalizeVal := by
  rw [fetch_announcements, fetchLoop_eq] at hmem ⊢
  simp only [List.nil_append] at hmem ⊢
  exact fetchLogSpec_small resp maxp (maxp + 1) 1 p e v hmem hs

/-- Witness for C2: with the concrete oracle, the one-row answer of variant
`(1, 0, 1)` ends the run — it is the last logged request, no page above 1 is
requested, and the result ends with its normalized row. -/
theorem C2_small_yield_stops_pagination_witness :
    smallYield respCex 1 0 1 = true ∧
    (∀ q ∈ (fetch_announcements respCex 30).2, q.1 ≤ 1) ∧
    (fetch_announcements respCex 30).2.getLast? = some (1, 0, 1) ∧
    ∃ pre, (fetch_announcements respCex 30).1
      = pre ++ (rawRowsAt respCex 1 0 1).map normalizeVal :=
  ⟨by decide, C2_small_yield_stops_pagination respCex 30 1 0 1 (by decide) (by decide)⟩

/-- Counterexample to C1 as stated: with `respCex`, the first productive
combination on page 1 is `(endpoint 0, variant 0)` with a full page of 20
rows, yet the fetch returns 21 rows — variant `(0, 1)` (also productive on
the same page) contributed its row too, so the result is NOT the rows of the
first productive combination alone. -/
theorem C1_counterexample_later_variant_contributes :
    (fetch_announcements respCex 30).1 ≠ (rawRowsAt respCex 1 0 0).map normalizeVal ∧
    (fetch_announcements respCex 30).1.length = 21 ∧
    ((rawRowsAt respCex 1 0 0).map normalizeVal).length = 20 ∧
    rawRowsAt respCex 1 0 0 ≠ [] ∧
    rawRowsAt respCex 1 0 1 ≠ [] := by
  decide

/-- C1 (amended): for every page processed, EVERY endpoint/variant
combination that yields a non-empty row list contributes its normalized rows,
in attempt order; attempts for a page stop (and the whole fetch returns) only
after a variant yields fewer than 20 rows — the accumulated result is exactly
`fetchRowsSpec`. (The original claim — that only the first productive
combination contributes for a page — fails, see the counterexample: the inner
loops have no `break` after a productive variant.) -/
theorem C1_rows_accumulate_per_variant (resp : RespOracle) (maxp : Nat) :
    (fetch_announcements resp maxp).1 = fetchRowsSpec resp maxp (maxp + 1) 1 := by
  rw [fetch_announcements_eq]

end BSE
